import Mathlib

/-!
Verification of the backend-configuration parser of Viceroy
(`src/lib/src/config/backends.rs`): the data model (`Backend`,
`BackendsConfig`) and the validating `TryFrom` conversions from a TOML
table, together with the external parsers they call
(`http::Uri::from_str` and `http::HeaderValue::from_str`, modelled from
the `http` crate used by `hyper` 0.14).
-/

set_option maxHeartbeats 1000000

namespace Viceroy

/-! ### TOML values and tables

Model of `toml::value::Value` and `toml::value::Table`.  A table is an
association list of unique keys in iteration order (the `toml` crate's
`Map` iterates deterministically; `BTreeMap` by key order).  Payloads this
module never inspects (float and datetime contents) are omitted: the
parser only ever branches on the variant tag for those.
-/

inductive Value where
  | string (s : String)
  | integer (i : Int)
  | float
  | boolean (b : Bool)
  | datetime
  | array (vs : List Value)
  | table (t : List (String × Value))

abbrev Table : Type := List (String × Value)

/-- Model of `Map::remove` followed by continued use of the map: returns
the removed value (if the key was present) and the table without that
binding. -/
def Table.remove (t : Table) (k : String) : Option Value × Table :=
  match t with
  | [] => (none, [])
  | (k', v) :: rest =>
    if k' = k then (some v, rest)
    else
      let r := Table.remove rest k
      (r.1, (k', v) :: r.2)

/-- Keys of a table in iteration order. -/
def Table.keys (t : Table) : List String := t.map Prod.fst

/-! ### Model of `http::Uri` parsing

`Backend::try_from` validates the `url` field with
`url.parse::<hyper::Uri>()`; `hyper::Uri` re-exports `http::Uri`.  The
definitions below model `http::Uri::from_str` of the `http` 0.2 crate
(an external dependency; the repository itself contains no URI parser):
a URI is accepted in absolute form (`scheme://authority/path?query`),
origin form (leading `/`), authority-only form, or asterisk form, and the
empty string is rejected.  Characters are modelled at the Unicode scalar
level; every non-ASCII scalar encodes to bytes outside the crate's
byte-validity tables, so it is invalid exactly as in the source.
-/

/-- A parsed URI: its scheme, authority and path-and-query components,
empty when absent (mirroring the component storage of `http::Uri`). -/
structure Uri where
  scheme : String
  authority : String
  pathAndQuery : String
deriving DecidableEq, Repr

/-- Characters the `http` crate's `URI_CHARS` table marks valid (RFC 3986
unreserved, gen-delims and sub-delims, percent, and the extra bytes the
table admits). -/
def uriChar (c : Char) : Bool :=
  c.isAlpha || c.isDigit ||
    c = '!' || c = '#' || c = '$' || c = '%' || c = '&' || c = '\'' ||
    c = '(' || c = ')' || c = '*' || c = '+' || c = ',' || c = '-' ||
    c = '.' || c = '/' || c = ':' || c = ';' || c = '=' || c = '?' ||
    c = '@' || c = '[' || c = ']' || c = '^' || c = '_' || c = '`' ||
    c = '|' || c = '~'

/-- Characters valid inside a URI scheme (`SCHEME_CHARS`): letters,
digits, plus, minus, dot. -/
def schemeChar (c : Char) : Bool :=
  c.isAlpha || c.isDigit || c = '+' || c = '-' || c = '.'

/-- ASCII-case-insensitive character comparison (`eq_ignore_ascii_case`). -/
def charEqIgnoreAsciiCase (a b : Char) : Bool :=
  a.toLower = b.toLower

/-- ASCII-case-insensitive prefix test over character lists. -/
def prefixCaseInsensitive : List Char → List Char → Bool
  | [], _ => true
  | _ :: _, [] => false
  | p :: ps, c :: cs => charEqIgnoreAsciiCase p c && prefixCaseInsensitive ps cs

/-- Scan for a scheme terminator, model of the loop of `Scheme2::parse`:
walk the string; at a `:` followed by `//`, the prefix is the scheme
(rejecting an empty or over-long one); a non-scheme character or an
ill-placed `:` means no scheme. -/
def schemeScan (orig : List Char) : Nat → List Char → Except Unit (Option String × List Char)
  | _, [] => Except.ok (none, orig)
  | i, c :: cs =>
    if c = ':' then
      if orig.length < i + 3 then Except.ok (none, orig)
      else if (orig.drop (i + 1)).take 2 ≠ ['/', '/'] then Except.ok (none, orig)
      else if i = 0 then Except.error ()
      else if i > 64 then Except.error ()
      else Except.ok (some (String.mk (orig.take i)), orig.drop (i + 3))
    else if schemeChar c then schemeScan orig (i + 1) cs
    else Except.ok (none, orig)

/-- Model of `Scheme2::parse`: fast paths for `http://` and `https://`
(ASCII-case-insensitively), else the scan above on strings longer than
three characters. -/
def schemeParse (s : List Char) : Except Unit (Option String × List Char) :=
  if s.length ≥ 7 && prefixCaseInsensitive "http://".data s then
    Except.ok (some "http", s.drop 7)
  else if s.length ≥ 8 && prefixCaseInsensitive "https://".data s then
    Except.ok (some "https", s.drop 8)
  else if s.length > 3 then schemeScan s 0 s
  else Except.ok (none, s)

/-- Final validity checks of `Authority::parse` once the end of the
authority is known: brackets balanced, at most one port colon, nothing
dangling after `@`, no percent outside the userinfo. -/
def authorityFinish (endPos colonCnt : Nat) (startBracket endBracket hasPercent : Bool)
    (atSignPos : Option Nat) : Except Unit Nat :=
  if startBracket ≠ endBracket then Except.error ()
  else if colonCnt > 1 then Except.error ()
  else if endPos > 0 && atSignPos = some (endPos - 1) then Except.error ()
  else if hasPercent then Except.error ()
  else Except.ok endPos

/-- Main loop of `Authority::parse`: find where the authority ends (at
`/`, `?` or `#`, or the end of input), tracking colons, brackets, `@` and
`%` exactly as the source does, and rejecting invalid URI characters. -/
def authorityScan (i colonCnt : Nat) (startBracket endBracket hasPercent : Bool)
    (atSignPos : Option Nat) : List Char → Except Unit Nat
  | [] => authorityFinish i colonCnt startBracket endBracket hasPercent atSignPos
  | c :: cs =>
    if uriChar c = false then Except.error ()
    else if c = '/' || c = '?' || c = '#' then
      authorityFinish i colonCnt startBracket endBracket hasPercent atSignPos
    else if c = ':' then
      if colonCnt ≥ 8 then Except.error ()
      else authorityScan (i + 1) (colonCnt + 1) startBracket endBracket hasPercent atSignPos cs
    else if c = '[' then
      if hasPercent || startBracket then Except.error ()
      else authorityScan (i + 1) colonCnt true endBracket hasPercent atSignPos cs
    else if c = ']' then
      if endBracket then Except.error ()
      else authorityScan (i + 1) 0 startBracket true false atSignPos cs
    else if c = '@' then
      authorityScan (i + 1) 0 startBracket endBracket false (some i) cs
    else if c = '%' then
      authorityScan (i + 1) colonCnt startBracket endBracket true atSignPos cs
    else
      authorityScan (i + 1) colonCnt startBracket endBracket hasPercent atSignPos cs

/-- Model of `Authority::parse`: the position where the authority ends,
or an error. -/
def authorityParse (s : List Char) : Except Unit Nat :=
  authorityScan 0 0 false false false none s

/-- Model of `Authority::from_shared`: the whole (non-empty) string must
be a valid authority. -/
def authorityFromShared (s : List Char) : Option String :=
  if s.isEmpty then none
  else
    match authorityParse s with
    | Except.error _ => none
    | Except.ok endPos => if endPos = s.length then some (String.mk s) else none

/-- Bytes that may appear un-percent-encoded in a path per
`PathAndQuery::from_shared` (including the curly braces it deliberately
admits). -/
def pathChar (c : Char) : Bool :=
  let n := c.toNat
  n = 0x21 || (0x24 ≤ n && n ≤ 0x3B) || n = 0x3D || (0x40 ≤ n && n ≤ 0x5F) ||
    (0x61 ≤ n && n ≤ 0x7A) || n = 0x7C || n = 0x7E || n = 0x7B || n = 0x7D

/-- Bytes admitted in a query string by `PathAndQuery::from_shared`. -/
def queryChar (c : Char) : Bool :=
  let n := c.toNat
  n = 0x21 || (0x24 ≤ n && n ≤ 0x3B) || n = 0x3D || (0x3F ≤ n && n ≤ 0x7E)

/-- Query part of the `PathAndQuery::from_shared` scan; a `#` truncates
the stored data at the fragment. -/
def pqScanQuery (acc : List Char) : List Char → Option (List Char)
  | [] => some acc.reverse
  | c :: cs =>
    if c = '#' then some acc.reverse
    else if queryChar c then pqScanQuery (c :: acc) cs
    else none

/-- Path part of the `PathAndQuery::from_shared` scan: a `?` switches to
the query scan, a `#` truncates at the fragment, an invalid character
fails. -/
def pqScanPath (acc : List Char) : List Char → Option (List Char)
  | [] => some acc.reverse
  | c :: cs =>
    if c = '?' then pqScanQuery (c :: acc) cs
    else if c = '#' then some acc.reverse
    else if pathChar c then pqScanPath (c :: acc) cs
    else none

/-- Model of `PathAndQuery::from_shared`: the stored path-and-query data
(input truncated at any fragment), or failure on an invalid character. -/
def pathAndQueryFromShared (s : List Char) : Option String :=
  (pqScanPath [] s).map String.mk

/-- Model of `parse_full`: strip any scheme, locate the authority, and
parse the remainder as path-and-query.  Without a scheme the whole string
must be an authority; with a scheme the authority must be non-empty. -/
def parseFull (s : List Char) : Option Uri :=
  match schemeParse s with
  | Except.error _ => none
  | Except.ok (none, _) =>
    match authorityParse s with
    | Except.error _ => none
    | Except.ok endPos =>
      if endPos ≠ s.length then none
      else some { scheme := "", authority := String.mk s, pathAndQuery := "" }
  | Except.ok (some scheme, rest) =>
    match authorityParse rest with
    | Except.error _ => none
    | Except.ok endPos =>
      if endPos = 0 then none
      else
        let auth := String.mk (rest.take endPos)
        let after := rest.drop endPos
        if after.isEmpty then
          some { scheme := scheme, authority := auth, pathAndQuery := "" }
        else
          match pathAndQueryFromShared after with
          | some pq => some { scheme := scheme, authority := auth, pathAndQuery := pq }
          | none => none

/-- Model of `Uri::from_shared` (hence `str::parse::<Uri>`): length
limits, the empty-string rejection, the single-character fast paths for
`/` and `*`, origin form for a leading slash, and `parse_full`
otherwise.  Returns `none` exactly when the source returns an
`InvalidUri` error. -/
def parseUri (s : String) : Option Uri :=
  let cs := s.data
  if cs.length > 65534 then none
  else
    match cs with
    | [] => none
    | [c] =>
      if c = '/' then some { scheme := "", authority := "", pathAndQuery := "/" }
      else if c = '*' then some { scheme := "", authority := "", pathAndQuery := "*" }
      else
        match authorityFromShared [c] with
        | some a => some { scheme := "", authority := a, pathAndQuery := "" }
        | none => none
    | c :: _ =>
      if c = '/' then
        match pathAndQueryFromShared cs with
        | some pq => some { scheme := "", authority := "", pathAndQuery := pq }
        | none => none
      else parseFull cs

/-! ### Model of `http::HeaderValue::from_str` and Rust string trimming -/

/-- Validity of one byte of a header value in the `http` crate: at least
32 and not 127, or horizontal tab.  Every byte of a non-ASCII scalar's
UTF-8 encoding is at least 128 and so valid, which the character-level
test below reflects. -/
def headerValueChar (c : Char) : Bool :=
  c = '\t' || (32 ≤ c.toNat && c.toNat ≠ 127)

/-- Model of `HeaderValue::from_str`: succeeds, preserving the string
byte-for-byte, exactly when every character is a valid header-value
byte. -/
def headerValueFromStr (s : String) : Option String :=
  if s.data.all headerValueChar then some s else none

/-- Characters with the Unicode White_Space property, the set
`char::is_whitespace` tests in Rust. -/
def rustWhitespace (c : Char) : Bool :=
  let n := c.toNat
  (0x09 ≤ n && n ≤ 0x0D) || n = 0x20 || n = 0x85 || n = 0xA0 || n = 0x1680 ||
    (0x2000 ≤ n && n ≤ 0x200A) || n = 0x2028 || n = 0x2029 || n = 0x202F ||
    n = 0x205F || n = 0x3000

/-- Model of Rust's `s.trim().is_empty()`: trimming removes whitespace
from both ends, so the trimmed string is empty exactly when every
character is whitespace. -/
def trimIsEmpty (s : String) : Bool :=
  s.data.all rustWhitespace

/-! ### Data model and error taxonomy -/

/-- Modelled from the spec: `ClientCertInfo` is identity material from an
external module, referenced only by type here and never constructed by
the static parser; its contents are irrelevant to this core. -/
inductive ClientCertInfo where
  | info
deriving DecidableEq, Repr

/-- Modelled from the spec: `Handler` wraps an in-process request-handling
capability behind shared ownership; the static parser never constructs
one, so only its presence or absence matters to this development. -/
inductive Handler where
  | handler
deriving DecidableEq, Repr

/-- A single backend definition (`struct Backend`).  A `HeaderValue` is
represented by the string whose bytes it stores. -/
structure Backend where
  uri : Uri
  override_host : Option String
  cert_host : Option String
  use_sni : Bool
  grpc : Bool
  client_cert : Option ClientCertInfo
  handler : Option Handler
deriving DecidableEq, Repr

/-- The field-level error kinds of `BackendConfigError` reachable from
this module.  `InvalidUri` and `InvalidHeaderValue` are the variants that
wrap the external parsers' errors (whose payloads are not inspected
here). -/
inductive BackendConfigError where
  | InvalidEntryType
  | MissingUrl
  | InvalidUrlEntry
  | InvalidUri
  | EmptyOverrideHost
  | InvalidOverrideHostEntry
  | InvalidHeaderValue
  | EmptyCertHost
  | InvalidCertHostEntry
  | InvalidUseSniEntry
  | InvalidGrpcEntry
  | UnrecognizedKey (key : String)
deriving DecidableEq, Repr

/-- The variant of `FastlyConfigError` produced by this module: a
field-level error attributed to a named backend. -/
inductive FastlyConfigError where
  | InvalidBackendDefinition (name : String) (err : BackendConfigError)
deriving DecidableEq, Repr

/-! ### The validating parser -/

/-- Helper converting a TOML `Value` into a `Table` (`into_table`). -/
def into_table (value : Value) : Except BackendConfigError Table :=
  match value with
  | Value.table t => Except.ok t
  | _ => Except.error BackendConfigError.InvalidEntryType

/-- Model of `check_for_unrecognized_keys`: error with the first
remaining key in iteration order, if any. -/
def check_for_unrecognized_keys (table : Table) : Except BackendConfigError Unit :=
  match table with
  | (key, _) :: _ => Except.error (BackendConfigError.UnrecognizedKey key)
  | [] => Except.ok ()

/-- Validation of the removed `url` field: required, must be a string,
and must parse as a `Uri` (parse failure maps through
`BackendConfigError::from`). -/
def urlStep (v : Option Value) : Except BackendConfigError Uri :=
  match v with
  | none => Except.error BackendConfigError.MissingUrl
  | some (Value.string url) =>
    match parseUri url with
    | some uri => Except.ok uri
    | none => Except.error BackendConfigError.InvalidUri
  | some _ => Except.error BackendConfigError.InvalidUrlEntry

/-- Validation of the removed `override_host` field: optional; a string
that is non-empty after trimming becomes a header value (failure maps
through `BackendConfigError::from`), a blank string is
`EmptyOverrideHost`, anything else `InvalidOverrideHostEntry`. -/
def overrideHostStep (v : Option Value) : Except BackendConfigError (Option String) :=
  match v with
  | none => Except.ok none
  | some (Value.string oh) =>
    if trimIsEmpty oh = false then
      match headerValueFromStr oh with
      | some hv => Except.ok (some hv)
      | none => Except.error BackendConfigError.InvalidHeaderValue
    else Except.error BackendConfigError.EmptyOverrideHost
  | some _ => Except.error BackendConfigError.InvalidOverrideHostEntry

/-- Validation of the removed `cert_host` field: optional; any string
non-empty after trimming is kept verbatim, a blank string is
`EmptyCertHost`, anything else `InvalidCertHostEntry`. -/
def certHostStep (v : Option Value) : Except BackendConfigError (Option String) :=
  match v with
  | none => Except.ok none
  | some (Value.string ch) =>
    if trimIsEmpty ch = false then Except.ok (some ch)
    else Except.error BackendConfigError.EmptyCertHost
  | some _ => Except.error BackendConfigError.InvalidCertHostEntry

/-- Validation of the removed `use_sni` field: optional boolean,
defaulting to `true`. -/
def useSniStep (v : Option Value) : Except BackendConfigError Bool :=
  match v with
  | none => Except.ok true
  | some (Value.boolean b) => Except.ok b
  | some _ => Except.error BackendConfigError.InvalidUseSniEntry

/-- Validation of the removed `grpc` field: optional boolean, defaulting
to `false`. -/
def grpcStep (v : Option Value) : Except BackendConfigError Bool :=
  match v with
  | none => Except.ok false
  | some (Value.boolean b) => Except.ok b
  | some _ => Except.error BackendConfigError.InvalidGrpcEntry

/-- Model of `impl TryFrom<Table> for Backend`: remove and validate
`url`, `override_host`, `cert_host`, `use_sni` and `grpc` in that order,
each failure aborting immediately; then fail on any leftover key; on
success build the `Backend` with `client_cert` and `handler` absent. -/
def tryFromBackend (toml0 : Table) : Except BackendConfigError Backend :=
  let r1 := toml0.remove "url"
  match urlStep r1.1 with
  | Except.error e => Except.error e
  | Except.ok uri =>
    let r2 := r1.2.remove "override_host"
    match overrideHostStep r2.1 with
    | Except.error e => Except.error e
    | Except.ok override_host =>
      let r3 := r2.2.remove "cert_host"
      match certHostStep r3.1 with
      | Except.error e => Except.error e
      | Except.ok cert_host =>
        let r4 := r3.2.remove "use_sni"
        match useSniStep r4.1 with
        | Except.error e => Except.error e
        | Except.ok use_sni =>
          let r5 := r4.2.remove "grpc"
          match grpcStep r5.1 with
          | Except.error e => Except.error e
          | Except.ok grpc =>
            match check_for_unrecognized_keys r5.2 with
            | Except.error e => Except.error e
            | Except.ok _ =>
              Except.ok
                { uri := uri
                  override_host := override_host
                  cert_host := cert_host
                  use_sni := use_sni
                  grpc := grpc
                  client_cert := none
                  handler := none }

/-- Model of `process_entry`: the entry value must be a table and then a
valid `Backend`; any error is wrapped with the backend's name.  (The
`Arc` wrapper is identity in this embedding.) -/
def process_entry (name : String) (defs : Value) : Except FastlyConfigError (String × Backend) :=
  match (into_table defs).bind tryFromBackend with
  | Except.error err => Except.error (FastlyConfigError.InvalidBackendDefinition name err)
  | Except.ok d => Except.ok (name, d)

/-- Model of `impl TryFrom<Table> for BackendsConfig`: map
`process_entry` over the entries in iteration order and collect, failing
at the first error (`collect::<Result<_, _>>` short-circuits); the
resulting mapping is represented as the association list of produced
entries. -/
def tryFromBackendsConfig (toml : Table) : Except FastlyConfigError (List (String × Backend)) :=
  match toml with
  | [] => Except.ok []
  | (name, defs) :: rest =>
    match process_entry name defs with
    | Except.error e => Except.error e
    | Except.ok nb =>
      match tryFromBackendsConfig rest with
      | Except.error e => Except.error e
      | Except.ok m => Except.ok (nb :: m)

/-! ### Statement-side input constructors and basic lemmas -/

/-- One optional binding of an entry table: present with the given key
and payload constructor, or absent. -/
def optPart {α : Type} (key : String) (f : α → Value) (o : Option α) : Table :=
  match o with
  | some a => [(key, f a)]
  | none => []

/-- A backend entry table in canonical key order: a required `url`
string and the four optional fields, each present or absent. -/
def entryOf (su : String) (oh ch : Option String) (sni g : Option Bool) : Table :=
  ("url", Value.string su) ::
    (optPart "override_host" Value.string oh ++ optPart "cert_host" Value.string ch ++
      optPart "use_sni" Value.boolean sni ++ optPart "grpc" Value.boolean g)

theorem remove_eq_of_forall_ne {t : Table} {key : String}
    (h : ∀ p ∈ t, p.1 ≠ key) : Table.remove t key = (none, t) := by
  induction t with
  | nil => rfl
  | cons p rest ih =>
    have hp : p.1 ≠ key := h p (by simp)
    simp only [Table.remove, if_neg hp, ih fun q hq => h q (by simp [hq])]

theorem overrideHostStep_map (oh : Option String)
    (h : ∀ s, oh = some s → trimIsEmpty s = false ∧ headerValueFromStr s = some s) :
    overrideHostStep (Option.map Value.string oh) = Except.ok oh := by
  cases oh with
  | none => rfl
  | some s =>
    obtain ⟨h1, h2⟩ := h s rfl
    simp [overrideHostStep, h1, h2]

theorem certHostStep_map (ch : Option String)
    (h : ∀ s, ch = some s → trimIsEmpty s = false) :
    certHostStep (Option.map Value.string ch) = Except.ok ch := by
  cases ch with
  | none => rfl
  | some s => simp [certHostStep, h s rfl]

theorem useSniStep_map (sni : Option Bool) :
    useSniStep (Option.map Value.boolean sni) = Except.ok (sni.getD true) := by
  cases sni <;> rfl

theorem grpcStep_map (g : Option Bool) :
    grpcStep (Option.map Value.boolean g) = Except.ok (g.getD false) := by
  cases g <;> rfl

/-- Characterization of `tryFromBackend` on a canonical entry with a
valid `url`, valid-or-absent optional fields, and an arbitrary tail of
unrecognized bindings: every field validates, leaving exactly the tail
for the final unrecognized-key check. -/
theorem tryFromBackend_entryOf (su : String) (u : Uri) (oh ch : Option String)
    (sni g : Option Bool) (rest : Table)
    (hu : parseUri su = some u)
    (hoh : ∀ s, oh = some s → trimIsEmpty s = false ∧ headerValueFromStr s = some s)
    (hch : ∀ s, ch = some s → trimIsEmpty s = false)
    (hrest : ∀ p ∈ rest, p.1 ∉ (["url", "override_host", "cert_host", "use_sni", "grpc"] : List String)) :
    tryFromBackend (entryOf su oh ch sni g ++ rest) =
      match check_for_unrecognized_keys rest with
      | Except.error e => Except.error e
      | Except.ok _ =>
        Except.ok
          { uri := u, override_host := oh, cert_host := ch, use_sni := sni.getD true,
            grpc := g.getD false, client_cert := none, handler := none } := by
  have h5 : ∀ key ∈ (["url", "override_host", "cert_host", "use_sni", "grpc"] : List String),
      Table.remove rest key = (none, rest) := by
    intro key hk
    exact remove_eq_of_forall_ne fun p hp hcontra => (hrest p hp) (hcontra ▸ hk)
  have hA := h5 "url" (by simp)
  have hB := h5 "override_host" (by simp)
  have hC := h5 "cert_host" (by simp)
  have hD := h5 "use_sni" (by simp)
  have hE := h5 "grpc" (by simp)
  have hoh' := overrideHostStep_map oh hoh
  have hch' := certHostStep_map ch hch
  have hsni' := useSniStep_map sni
  have hg' := grpcStep_map g
  rcases oh with _ | s <;> rcases ch with _ | c <;> rcases sni with _ | b1 <;> rcases g with _ | b2 <;>
    simp_all [entryOf, optPart, tryFromBackend, Table.remove, urlStep]

theorem process_entry_error_name (name : String) (v : Value) (e : FastlyConfigError)
    (h : process_entry name v = Except.error e) :
    ∃ err, e = FastlyConfigError.InvalidBackendDefinition name err := by
  unfold process_entry at h
  split at h
  · next err _ => exact ⟨err, by injection h with h'; exact h'.symm⟩
  · exact Except.noConfusion h

theorem process_entry_ok_name (name : String) (v : Value) (nb : String × Backend)
    (h : process_entry name v = Except.ok nb) : nb.1 = name := by
  unfold process_entry at h
  split at h
  · exact Except.noConfusion h
  · cases h; rfl

/-! ### Claims -/

/-- C1: for every entry table (in canonical key order) whose url field is
a parseable URI string and whose optional fields are well-typed and
non-blank, `Backend::try_from` succeeds; `use_sni` is true and `grpc`
false when those keys are absent, each field equals the literal
configured value when present, and `client_cert` and `handler` are
absent. -/
theorem backend_valid_entry_defaults_and_literals (su : String) (u : Uri)
    (oh ch : Option String) (sni g : Option Bool)
    (hu : parseUri su = some u)
    (hoh : ∀ s, oh = some s → trimIsEmpty s = false ∧ headerValueFromStr s = some s)
    (hch : ∀ s, ch = some s → trimIsEmpty s = false) :
    tryFromBackend (entryOf su oh ch sni g) =
      Except.ok
        { uri := u, override_host := oh, cert_host := ch, use_sni := sni.getD true,
          grpc := g.getD false, client_cert := none, handler := none } := by
  have h := tryFromBackend_entryOf su u oh ch sni g [] hu hoh hch (by simp)
  simpa [check_for_unrecognized_keys] using h

/-- Witness for C1, the concrete scenario of an entry holding only
url = "https://example.com". -/
theorem backend_valid_entry_defaults_and_literals_witness :
    parseUri "https://example.com" =
      some { scheme := "https", authority := "example.com", pathAndQuery := "" } ∧
    tryFromBackend (entryOf "https://example.com" none none none none) =
      Except.ok
        { uri := { scheme := "https", authority := "example.com", pathAndQuery := "" },
          override_host := none, cert_host := none, use_sni := true, grpc := false,
          client_cert := none, handler := none } :=
  ⟨rfl,
   backend_valid_entry_defaults_and_literals "https://example.com"
     { scheme := "https", authority := "example.com", pathAndQuery := "" }
     none none none none rfl (fun _ h => nomatch h) (fun _ h => nomatch h)⟩

/-- C2: whenever some entry of the outer table fails to convert, the
whole conversion fails with an error naming an offending backend together
with its field-level error (and hence no mapping, partial or otherwise,
is produced). -/
theorem backends_config_all_or_nothing (t : Table)
    (h : ∃ p ∈ t, ∃ e, process_entry p.1 p.2 = Except.error e) :
    ∃ name err,
      tryFromBackendsConfig t =
        Except.error (FastlyConfigError.InvalidBackendDefinition name err) ∧
      ∃ v, (name, v) ∈ t ∧
        process_entry name v =
          Except.error (FastlyConfigError.InvalidBackendDefinition name err) := by
  induction t with
  | nil => simp at h
  | cons p rest ih =>
    obtain ⟨q, hq, e, he⟩ := h
    cases hok : process_entry p.1 p.2 with
    | error e' =>
      obtain ⟨err, rfl⟩ := process_entry_error_name p.1 p.2 e' hok
      refine ⟨p.1, err, ?_, p.2, by simp, hok⟩
      obtain ⟨name, defs⟩ := p
      rw [tryFromBackendsConfig, hok]
    | ok nb =>
      have hqrest : q ∈ rest := by
        rcases List.mem_cons.mp hq with rfl | hmem
        · rw [he] at hok; exact Except.noConfusion hok
        · exact hmem
      obtain ⟨name, err, hrun, v, hv, hpe⟩ := ih ⟨q, hqrest, e, he⟩
      refine ⟨name, err, ?_, v, by simp [hv], hpe⟩
      obtain ⟨pname, pdefs⟩ := p
      rw [tryFromBackendsConfig, hok, hrun]

/-- Witness for C2, concrete scenario E: a two-backend table where entry
a is valid and entry b has an integer url fails as a whole, naming
backend b with InvalidUrlEntry. -/
theorem backends_config_all_or_nothing_witness :
    tryFromBackendsConfig
        [("a", Value.table [("url", Value.string "https://a")]),
         ("b", Value.table [("url", Value.integer 123)])] =
      Except.error
        (FastlyConfigError.InvalidBackendDefinition "b" BackendConfigError.InvalidUrlEntry) ∧
    ∃ name err,
      tryFromBackendsConfig
          [("a", Value.table [("url", Value.string "https://a")]),
           ("b", Value.table [("url", Value.integer 123)])] =
        Except.error (FastlyConfigError.InvalidBackendDefinition name err) ∧
      ∃ v, (name, v) ∈
          ([("a", Value.table [("url", Value.string "https://a")]),
            ("b", Value.table [("url", Value.integer 123)])] : Table) ∧
        process_entry name v =
          Except.error (FastlyConfigError.InvalidBackendDefinition name err) :=
  ⟨rfl,
   backends_config_all_or_nothing _
     ⟨("b", Value.table [("url", Value.integer 123)]), by simp,
      FastlyConfigError.InvalidBackendDefinition "b" BackendConfigError.InvalidUrlEntry, rfl⟩⟩

/-- C3 counterexample: an entry whose url is the relative reference
"/path" (not an absolute URI) is accepted by `Backend::try_from`,
yielding a backend whose uri has no scheme and no authority — the http
crate's URI grammar admits origin-form references, so the claim that such
entries fail is false. -/
theorem backend_url_origin_form_accepted :
    tryFromBackend [("url", Value.string "/path")] =
      Except.ok
        { uri := { scheme := "", authority := "", pathAndQuery := "/path" },
          override_host := none, cert_host := none, use_sni := true, grpc := false,
          client_cert := none, handler := none } := rfl

/-- C3 (amended): the url string must parse under the http crate's URI
grammar — which also admits non-absolute forms — and whenever that parse
fails (for example on the empty string), `Backend::try_from` fails with
the wrapped URI-parse error rather than defaulting the uri. -/
theorem backend_url_parse_failure_rejected (t : Table) (su : String)
    (h : (Table.remove t "url").1 = some (Value.string su))
    (hp : parseUri su = none) :
    tryFromBackend t = Except.error BackendConfigError.InvalidUri := by
  simp [tryFromBackend, h, urlStep, hp]

/-- Witness for the amended C3: the empty url string fails to parse and
the entry is rejected. -/
theorem backend_url_parse_failure_rejected_witness :
    tryFromBackend [("url", Value.string "")] =
      Except.error BackendConfigError.InvalidUri :=
  backend_url_parse_failure_rejected [("url", Value.string "")] "" rfl rfl

/-- C4: the url field is validated first, so an entry with no url key
yields MissingUrl no matter what else the table contains, and an entry
whose url is present but not a string yields InvalidUrlEntry no matter
what else the table contains. -/
theorem backend_missing_url_first (t : Table) :
    ((Table.remove t "url").1 = none →
      tryFromBackend t = Except.error BackendConfigError.MissingUrl) ∧
    (∀ v, (Table.remove t "url").1 = some v → (∀ s, v ≠ Value.string s) →
      tryFromBackend t = Except.error BackendConfigError.InvalidUrlEntry) := by
  constructor
  · intro h
    simp [tryFromBackend, h, urlStep]
  · intro v hv hns
    cases v <;> first
      | exact absurd rfl (hns _)
      | simp [tryFromBackend, hv, urlStep]

/-- Witness for C4: a url-less entry with other (even invalid) fields is
MissingUrl, and an integer url is InvalidUrlEntry regardless of the
remaining fields. -/
theorem backend_missing_url_first_witness :
    tryFromBackend [("use_sni", Value.string "nope"), ("junk", Value.float)] =
      Except.error BackendConfigError.MissingUrl ∧
    tryFromBackend [("url", Value.integer 123), ("override_host", Value.integer 0)] =
      Except.error BackendConfigError.InvalidUrlEntry :=
  ⟨(backend_missing_url_first _).1 rfl,
   (backend_missing_url_first _).2 (Value.integer 123) rfl fun _ h => Value.noConfusion h⟩

/-- C5: an entry whose recognized fields all validate but which contains
further keys fails with UnrecognizedKey naming the first leftover key in
iteration order. -/
theorem backend_unrecognized_key_reported (su : String) (u : Uri) (oh ch : Option String)
    (sni g : Option Bool) (k : String) (v : Value) (extra : Table)
    (hu : parseUri su = some u)
    (hoh : ∀ s, oh = some s → trimIsEmpty s = false ∧ headerValueFromStr s = some s)
    (hch : ∀ s, ch = some s → trimIsEmpty s = false)
    (hk : ∀ p ∈ ((k, v) :: extra : Table),
      p.1 ∉ (["url", "override_host", "cert_host", "use_sni", "grpc"] : List String)) :
    tryFromBackend (entryOf su oh ch sni g ++ (k, v) :: extra) =
      Except.error (BackendConfigError.UnrecognizedKey k) := by
  have h := tryFromBackend_entryOf su u oh ch sni g ((k, v) :: extra) hu hoh hch hk
  simpa [check_for_unrecognized_keys] using h

/-- Witness for C5, concrete scenario C: an entry with
url = "https://example.com" and an extra key timeout is rejected with
UnrecognizedKey "timeout". -/
theorem backend_unrecognized_key_reported_witness :
    tryFromBackend (entryOf "https://example.com" none none none none ++
        [("timeout", Value.integer 30)]) =
      Except.error (BackendConfigError.UnrecognizedKey "timeout") :=
  backend_unrecognized_key_reported "https://example.com"
    { scheme := "https", authority := "example.com", pathAndQuery := "" }
    none none none none "timeout" (Value.integer 30) [] rfl
    (fun _ h => nomatch h) (fun _ h => nomatch h)
    (by rintro p hp; simp only [List.mem_singleton] at hp; subst hp; decide)

/-- C6: with a valid url, a blank (empty or all-whitespace) string for
override_host is rejected as EmptyOverrideHost, and — once the
override_host step has passed — a blank string for cert_host is rejected
as EmptyCertHost. -/
theorem backend_blank_host_rejected (t : Table) (su : String) (u : Uri) (s : String)
    (oh : Option String)
    (h1 : (Table.remove t "url").1 = some (Value.string su))
    (hu : parseUri su = some u) :
    ((Table.remove (Table.remove t "url").2 "override_host").1 = some (Value.string s) →
      trimIsEmpty s = true →
      tryFromBackend t = Except.error BackendConfigError.EmptyOverrideHost) ∧
    (overrideHostStep (Table.remove (Table.remove t "url").2 "override_host").1 =
        Except.ok oh →
      (Table.remove (Table.remove (Table.remove t "url").2 "override_host").2
          "cert_host").1 = some (Value.string s) →
      trimIsEmpty s = true →
      tryFromBackend t = Except.error BackendConfigError.EmptyCertHost) := by
  constructor
  · intro h2 hb
    simp [tryFromBackend, h1, urlStep, hu, h2, overrideHostStep, hb]
  · intro h2 h3 hb
    simp [tryFromBackend, h1, urlStep, hu, h2, h3, certHostStep, hb]

/-- Witness for C6: an empty override_host string and an all-whitespace
cert_host string are each rejected (scenario B among them). -/
theorem backend_blank_host_rejected_witness :
    tryFromBackend
        [("url", Value.string "https://example.com"), ("override_host", Value.string "")] =
      Except.error BackendConfigError.EmptyOverrideHost ∧
    tryFromBackend
        [("url", Value.string "https://example.com"), ("cert_host", Value.string " ")] =
      Except.error BackendConfigError.EmptyCertHost :=
  ⟨(backend_blank_host_rejected
      [("url", Value.string "https://example.com"), ("override_host", Value.string "")]
      "https://example.com"
      { scheme := "https", authority := "example.com", pathAndQuery := "" } "" none
      rfl rfl).1 rfl rfl,
   (backend_blank_host_rejected
      [("url", Value.string "https://example.com"), ("cert_host", Value.string " ")]
      "https://example.com"
      { scheme := "https", authority := "example.com", pathAndQuery := "" } " " none
      rfl rfl).2 rfl rfl rfl⟩

/-- C7: whenever `Backend::try_from` succeeds, the produced backend has
no client certificate and no handler — the static parser can never
populate those fields. -/
theorem backend_never_populates_cert_or_handler (t : Table) (b : Backend)
    (h : tryFromBackend t = Except.ok b) :
    b.client_cert = none ∧ b.handler = none := by
  unfold tryFromBackend at h
  simp only [] at h
  split at h
  · exact Except.noConfusion h
  · split at h
    · exact Except.noConfusion h
    · split at h
      · exact Except.noConfusion h
      · split at h
        · exact Except.noConfusion h
        · split at h
          · exact Except.noConfusion h
          · split at h
            · exact Except.noConfusion h
            · injection h with h'
              subst h'
              exact ⟨rfl, rfl⟩

/-- Witness for C7: the backend parsed from a minimal valid entry has no
client certificate and no handler. -/
theorem backend_never_populates_cert_or_handler_witness :
    ({ uri := { scheme := "https", authority := "example.com", pathAndQuery := "" },
       override_host := none, cert_host := none, use_sni := true, grpc := false,
       client_cert := none, handler := none } : Backend).client_cert = none ∧
    ({ uri := { scheme := "https", authority := "example.com", pathAndQuery := "" },
       override_host := none, cert_host := none, use_sni := true, grpc := false,
       client_cert := none, handler := none } : Backend).handler = none :=
  backend_never_populates_cert_or_handler
    [("url", Value.string "https://example.com")] _ rfl

/-- C8: whenever the whole-table conversion succeeds, the produced
mapping holds exactly one backend per input entry, keyed by exactly the
source table's keys. -/
theorem backends_config_key_set (t : Table) (m : List (String × Backend))
    (h : tryFromBackendsConfig t = Except.ok m) :
    m.map Prod.fst = Table.keys t := by
  induction t generalizing m with
  | nil =>
    simp only [tryFromBackendsConfig] at h
    injection h with h'
    subst h'
    rfl
  | cons p rest ih =>
    obtain ⟨name, defs⟩ := p
    rw [tryFromBackendsConfig] at h
    cases hpe : process_entry name defs with
    | error e => rw [hpe] at h; exact Except.noConfusion h
    | ok nb =>
      rw [hpe] at h
      cases hrec : tryFromBackendsConfig rest with
      | error e => rw [hrec] at h; exact Except.noConfusion h
      | ok m' =>
        rw [hrec] at h
        injection h with h'
        subst h'
        simp [Table.keys, process_entry_ok_name name defs nb hpe, ih m' hrec]

/-- Witness for C8: a concrete two-entry table produces a mapping with
exactly the keys a and b. -/
theorem backends_config_key_set_witness :
    ([("a",
        ({ uri := { scheme := "https", authority := "a", pathAndQuery := "" },
           override_host := none, cert_host := none, use_sni := true, grpc := false,
           client_cert := none, handler := none } : Backend)),
      ("b",
        ({ uri := { scheme := "", authority := "", pathAndQuery := "/b" },
           override_host := none, cert_host := none, use_sni := true, grpc := false,
           client_cert := none, handler := none } : Backend))].map Prod.fst) =
      Table.keys
        [("a", Value.table [("url", Value.string "https://a")]),
         ("b", Value.table [("url", Value.string "/b")])] :=
  backends_config_key_set
    [("a", Value.table [("url", Value.string "https://a")]),
     ("b", Value.table [("url", Value.string "/b")])] _ rfl

/-- C9: the conversion is deterministic — structurally identical input
tables yield structurally identical results, in this pure embedding
because the outcome is a function of the input table alone. -/
theorem backends_config_deterministic (t1 t2 : Table) (h : t1 = t2) :
    tryFromBackendsConfig t1 = tryFromBackendsConfig t2 := by
  rw [h]

/-- Witness for C9: validating a concrete table twice yields the same
result. -/
theorem backends_config_deterministic_witness :
    tryFromBackendsConfig [("a", Value.table [("url", Value.string "https://a")])] =
      tryFromBackendsConfig [("a", Value.table [("url", Value.string "https://a")])] :=
  backends_config_deterministic
    [("a", Value.table [("url", Value.string "https://a")])]
    [("a", Value.table [("url", Value.string "https://a")])] rfl

/-- C10: accepted override_host and cert_host strings are stored
untrimmed — the backend keeps the original string (the header value is
built from the untrimmed string and preserves it), trimming being used
only for the emptiness check. -/
theorem backend_stores_untrimmed_hosts (su : String) (u : Uri) (s c : String)
    (sni g : Option Bool)
    (hu : parseUri su = some u)
    (hs : trimIsEmpty s = false) (hsv : headerValueFromStr s = some s)
    (hc : trimIsEmpty c = false) :
    tryFromBackend (entryOf su (some s) (some c) sni g) =
      Except.ok
        { uri := u, override_host := some s, cert_host := some c,
          use_sni := sni.getD true, grpc := g.getD false,
          client_cert := none, handler := none } := by
  have h := tryFromBackend_entryOf su u (some s) (some c) sni g [] hu
    (fun s' hs' => by cases hs'; exact ⟨hs, hsv⟩)
    (fun s' hs' => by cases hs'; exact hc) (by simp)
  simpa [check_for_unrecognized_keys] using h

/-- Witness for C10: host strings with surrounding whitespace are stored
with that whitespace intact. -/
theorem backend_stores_untrimmed_hosts_witness :
    tryFromBackend
        (entryOf "https://example.com" (some " Host.Example ")
          (some " cert.example.com ") none none) =
      Except.ok
        { uri := { scheme := "https", authority := "example.com", pathAndQuery := "" },
          override_host := some " Host.Example ", cert_host := some " cert.example.com ",
          use_sni := true, grpc := false, client_cert := none, handler := none } :=
  backend_stores_untrimmed_hosts "https://example.com"
    { scheme := "https", authority := "example.com", pathAndQuery := "" }
    " Host.Example " " cert.example.com " none none rfl (by decide) rfl (by decide)

end Viceroy
